import Mathlib

/-!
Verification development for the `sf-meta-go` metadata-to-setup-URL resolver.

The TypeScript core (`OpenMetadataHandler.ts` and `Utils.ts`) is embedded
shallowly: catalog queries issued through the org connection become fields of
an explicit `Conn` record, fallible resolution becomes `Except String`, and
JavaScript string primitives (`split`, template-literal coercion of
`undefined`, negative array indexing) are modelled by executable Lean
functions over `String` / `List Char`.
-/

/-- The subset of a queried catalog record the code reads: `Id` and (for
validation rules) `EntityDefinitionId`. -/
structure SfRecord where
  Id : String
  EntityDefinitionId : String
deriving Repr, DecidableEq

/-- The org connection, reduced to the three capabilities the code uses:
`instanceUrl`, the tooling `sobject(name).find(filter).execute()` interface
(filter = field-equality pairs; an `Option` value models a JS `undefined`
filter value), and the raw SOQL `query(string)` interface (its `records`
array). -/
structure Conn where
  instanceUrl : String
  toolingFind : String → List (String × Option String) → List SfRecord
  soqlQuery : String → List SfRecord

/-- JS string/template-literal coercion of a possibly-`undefined` value:
`undefined` prints as the string `"undefined"`. -/
def jsTemplate : Option String → String
  | none => "undefined"
  | some s => s

/-- JS array indexing with a possibly negative index (`arr[i]` is `undefined`
for `i < 0` or `i ≥ length`). -/
def jsAt (l : List String) (i : Int) : Option String :=
  if 0 ≤ i then l.get? i.toNat else none

/-- Splits a character list at every occurrence of the character `c`,
keeping empty segments: the list-level model of ECMAScript
`String.prototype.split` with a one-character separator string. -/
def splitOnCharList (c : Char) : List Char → List (List Char)
  | [] => [[]]
  | a :: rest =>
    if a = c then
      [] :: splitOnCharList c rest
    else
      match splitOnCharList c rest with
      | [] => [[a]]
      | h :: t => (a :: h) :: t

/-- ECMAScript `s.split(sep)` for a one-character separator `c`. -/
def jsSplitChar (c : Char) (s : String) : List String :=
  (splitOnCharList c s.data).map String.mk

/-- Splits a character list at every (leftmost-first) occurrence of the
two-character separator `__`: the list-level model of ECMAScript
`String.prototype.split` with separator `"__"`. -/
def splitOnDunderList : List Char → List (List Char)
  | [] => [[]]
  | '_' :: '_' :: rest => [] :: splitOnDunderList rest
  | a :: rest =>
    match splitOnDunderList rest with
    | [] => [[a]]
    | h :: t => (a :: h) :: t

/-- ECMAScript `s.split('__')`. -/
def jsSplitDunder (s : String) : List String :=
  (splitOnDunderList s.data).map String.mk

/-- ECMAScript `s.endsWith(post)` (for ordinary string arguments it agrees
with Lean's `String.endsWith`, stated over the character list so that it
evaluates by kernel reduction). -/
def jsEndsWith (s post : String) : Bool :=
  post.data.isSuffixOf s.data

-- Utils.ts

/-- `Utils.isStandardField`: true iff the name does not end with `__c`. -/
def isStandardField (apiName : String) : Bool :=
  !(jsEndsWith apiName "__c")

/-- `Utils.isCustomMetadata`: true iff the name ends with `__mdt`. -/
def isCustomMetadata (apiName : String) : Bool :=
  jsEndsWith apiName "__mdt"

/-- `Utils.isPlatformEvent`: true iff the name ends with `__e`. -/
def isPlatformEvent (apiName : String) : Bool :=
  jsEndsWith apiName "__e"

/-- `Utils.isStandardObject`. -/
def isStandardObject (apiName : String) : Bool :=
  !(jsEndsWith apiName "__c" || isCustomMetadata apiName || isPlatformEvent apiName)

/-- `Utils.getObjectFieldDeveloperName`: split on `__`; middle segment when
there are more than two parts, first segment otherwise. -/
def getObjectFieldDeveloperName (fileName : String) : String :=
  let fieldSplitted := jsSplitDunder fileName
  if fieldSplitted.length > 2 then
    fieldSplitted.getD 1 ""
  else
    fieldSplitted.getD 0 ""

/-- `Utils.isWindows`: `process.platform === 'win32'`, with the platform
string made an explicit argument. -/
def isWindows (platform : String) : Bool :=
  platform == "win32"

-- OpenMetadataHandler.ts

/-- The two fields of Node's `path.parse` result the code reads. -/
structure ParsedPath where
  dir : String
  base : String
deriving Repr, DecidableEq

/-- Model of Node `path.parse` (posix form, for paths without trailing
separators, which is all the code ever receives): `base` is the part after
the last `/`, `dir` everything before it. -/
def pathParse (p : String) : ParsedPath :=
  let parts := jsSplitChar '/' p
  { dir := String.intercalate "/" parts.dropLast, base := parts.getLastD "" }

/-- `getExtension`: last two dot-segments joined by a dot when the base
filename has more than two dot-segments, otherwise the last segment alone. -/
def getExtension (pathParsedBase : String) : String :=
  let fileNameSplitted := jsSplitChar '.' pathParsedBase
  if fileNameSplitted.length > 2 then
    (fileNameSplitted.getD (fileNameSplitted.length - 2) "") ++ "." ++
      (fileNameSplitted.getD (fileNameSplitted.length - 1) "")
  else
    fileNameSplitted.getD (fileNameSplitted.length - 1) ""

/-- The state captured by the `Metadata` base-class constructor. -/
structure Metadata where
  conn : Conn
  extension : String
  pathParsed : ParsedPath

/-- The base-class constructor's derived API name:
`base.substring(0, base.length - (extension.length + 1))` (JS `substring`
clamps a negative end index to 0, as Nat subtraction does). -/
def Metadata.metadataApiName (x : Metadata) : String :=
  x.pathParsed.base.take (x.pathParsed.base.length - (x.extension.length + 1))

/-- Shared helper `getObjectId`: queries the `CustomObject` tooling catalog by
(namespace-stripped) developer name; `Object not found` on zero records,
otherwise the first record's id. -/
def getObjectId (conn : Conn) (objectName : String) : Except String String :=
  match conn.toolingFind "CustomObject"
      [("DeveloperName", some (getObjectFieldDeveloperName objectName))] with
  | [] => Except.error ("Object not found for " ++ objectName)
  | r :: _ => Except.ok r.Id

/-- `ApprovalProcess.getUrl`. The developer name is `apiName.split('.')[1]`,
interpolated into the SOQL template literal (an absent segment interpolates
as `"undefined"`, per JS). -/
def ApprovalProcess.getUrl (x : Metadata) : Except String String :=
  match x.conn.soqlQuery
      ("SELECT Id FROM ProcessDefinition WHERE DeveloperName = '" ++
        jsTemplate ((jsSplitChar '.' x.metadataApiName).get? 1) ++
        "' AND Type = 'Approval'") with
  | [] => Except.error ("Approval process not found for " ++ x.metadataApiName)
  | r :: _ => Except.ok ("lightning/setup/ApprovalProcesses/page?address=%2F" ++ r.Id)

/-- `SObject.getUrl` (the `await getObjectId` rejection propagates, modelled
by the explicit error case). -/
def SObject.getUrl (x : Metadata) : Except String String :=
  match getObjectId x.conn x.metadataApiName with
  | Except.error e => Except.error e
  | Except.ok objectId =>
    if isCustomMetadata x.metadataApiName then
      Except.ok ("lightning/setup/CustomMetadata/page?address=%2F" ++ objectId ++
        "%3Fsetupid%3DCustomMetadata")
    else if isPlatformEvent x.metadataApiName then
      Except.ok ("lightning/setup/EventObjects/page?address=%2F" ++ objectId ++
        "%3Fsetupid%3DEventObjects")
    else
      Except.ok ("lightning/setup/ObjectManager/" ++ objectId ++ "/Details/view")

/-- `GlobalValueSet.getUrl`. -/
def GlobalValueSet.getUrl (x : Metadata) : Except String String :=
  match x.conn.toolingFind "GlobalValueSet"
      [("DeveloperName", some x.metadataApiName)] with
  | [] => Except.error ("GlobalValueSet not found for " ++ x.metadataApiName)
  | r :: _ => Except.ok ("lightning/setup/Picklists/page?address=%2F" ++ r.Id)

/-- `QuickAction.getUrl`: object name before the first `.`, quick-action
developer name after it (possibly `undefined`, passed through to the filter).
The `Promise.all` of the two lookups fails fast on the object lookup's
rejection, which sequential `do`-binding reproduces. -/
def QuickAction.getUrl (x : Metadata) : Except String String :=
  let splitObjectNameLayoutName := jsSplitChar '.' x.metadataApiName
  let objectName := splitObjectNameLayoutName.getD 0 ""
  let quickActionName := splitObjectNameLayoutName.get? 1
  match getObjectId x.conn objectName with
  | Except.error e => Except.error e
  | Except.ok objectId =>
    match x.conn.toolingFind "QuickActionDefinition"
        [("DeveloperName", quickActionName)] with
    | [] => Except.error ("QuickAction not found for " ++ jsTemplate quickActionName)
    | r :: _ =>
      Except.ok ("lightning/setup/ObjectManager/" ++ objectId ++
        "/ButtonsLinksActions/" ++ r.Id ++ "/view")

/-- Hex digit value by character code (48-57 digits, 65-70 upper, 97-102
lower), for percent-decoding. -/
def hexVal (c : Char) : Option Nat :=
  let n := c.toNat
  if 48 ≤ n && n ≤ 57 then some (n - 48)
  else if 65 ≤ n && n ≤ 70 then some (n - 55)
  else if 97 ≤ n && n ≤ 102 then some (n - 87)
  else none

/-- List-level percent-decoding. -/
def percentDecodeList : List Char → List Char
  | '%' :: h1 :: h2 :: rest =>
    match hexVal h1, hexVal h2 with
    | some v1, some v2 => Char.ofNat (16 * v1 + v2) :: percentDecodeList rest
    | _, _ => '%' :: percentDecodeList (h1 :: h2 :: rest)
  | a :: rest => a :: percentDecodeList rest
  | [] => []

/-- Model of the ECMAScript `decodeURIComponent` builtin, restricted to
single-byte (ASCII) percent-escapes; multi-byte UTF-8 escape sequences and
`URIError` on malformed input are not modelled (no claim depends on them,
and malformed escapes are copied through unchanged). -/
def decodeURIComponent (s : String) : String :=
  String.mk (percentDecodeList s.data)

/-- `PageLayout.getUrl`: object name before the `-`, URL-decoded layout name
after it (an absent second half is JS `undefined`, which
`decodeURIComponent` coerces to the string `"undefined"`). -/
def PageLayout.getUrl (x : Metadata) : Except String String :=
  let splitObjectNameLayoutName := jsSplitChar '-' x.metadataApiName
  let objectName := splitObjectNameLayoutName.getD 0 ""
  let layoutName := splitObjectNameLayoutName.get? 1
  match getObjectId x.conn objectName with
  | Except.error e => Except.error e
  | Except.ok objectId =>
    match x.conn.toolingFind "Layout"
        [("Name", some (decodeURIComponent (jsTemplate layoutName)))] with
    | [] => Except.error ("Layout not found for " ++ jsTemplate layoutName)
    | r :: _ =>
      Except.ok ("lightning/setup/ObjectManager/" ++ objectId ++
        "/PageLayouts/" ++ r.Id ++ "/view")

/-- The enclosing object folder name, the idiom shared verbatim by
`RecordType.getUrl` and `Field.getUrl`:
`arrayPath = dir.split(path.sep); arrayPath[arrayPath.length - 2]` with JS
indexing (undefined out of range, coerced to `"undefined"` by the string
contexts it flows into — the degenerate single-segment-dir case is not
exercised by any claim). -/
def objectFolderNameOf (pathParsedDir : String) : String :=
  let arrayPath := jsSplitChar '/' pathParsedDir
  jsTemplate (jsAt arrayPath ((arrayPath.length : Int) - 2))

/-- `RecordType.getUrl`. -/
def RecordType.getUrl (x : Metadata) : Except String String :=
  let objectFolderName := objectFolderNameOf x.pathParsed.dir
  match getObjectId x.conn objectFolderName with
  | Except.error e => Except.error e
  | Except.ok objectId =>
    match x.conn.soqlQuery
        ("SELECT Id, DeveloperName FROM RecordType WHERE DeveloperName = '" ++
          x.metadataApiName ++ "'") with
    | [] => Except.error ("RecordType not found for " ++ x.metadataApiName)
    | r :: _ =>
      Except.ok ("lightning/setup/ObjectManager/" ++ objectId ++
        "/RecordTypes/" ++ r.Id ++ "/view")

/-- `Flow.getUrl`. -/
def Flow.getUrl (x : Metadata) : Except String String :=
  match x.conn.toolingFind "FlowDefinition"
      [("DeveloperName", some x.metadataApiName)] with
  | [] => Except.error ("Flow not found for " ++ x.metadataApiName)
  | r :: _ => Except.ok ("lightning/setup/Flows/page?address=%2F" ++ r.Id)

/-- `ValidationRule.getUrl`. -/
def ValidationRule.getUrl (x : Metadata) : Except String String :=
  match x.conn.toolingFind "ValidationRule"
      [("ValidationName", some x.metadataApiName)] with
  | [] => Except.error ("ValidationRule not found for " ++ x.metadataApiName)
  | r :: _ =>
    Except.ok ("lightning/setup/ObjectManager/" ++ r.EntityDefinitionId ++
      "/ValidationRules/" ++ r.Id ++ "/view")

/-- `FlexiPage.getUrl`. -/
def FlexiPage.getUrl (x : Metadata) : Except String String :=
  match x.conn.toolingFind "FlexiPage"
      [("DeveloperName", some x.metadataApiName)] with
  | [] => Except.error ("FlexiPage not found for " ++ x.metadataApiName)
  | r :: _ => Except.ok ("visualEditor/appBuilder.app?id=" ++ r.Id)

/-- `Profile.getUrl`. -/
def Profile.getUrl (x : Metadata) : Except String String :=
  match x.conn.toolingFind "Profile" [("Name", some x.metadataApiName)] with
  | [] => Except.error ("Profile not found for " ++ x.metadataApiName)
  | r :: _ => Except.ok ("lightning/setup/EnhancedProfiles/page?address=%2F" ++ r.Id)

/-- `PermissionSet.getUrl`. -/
def PermissionSet.getUrl (x : Metadata) : Except String String :=
  match x.conn.toolingFind "PermissionSet" [("Name", some x.metadataApiName)] with
  | [] => Except.error ("PermissionSet not found for " ++ x.metadataApiName)
  | r :: _ => Except.ok ("lightning/setup/PermSets/page?address=%2F" ++ r.Id)

/-- `PermissionSetGroup.getUrl`. -/
def PermissionSetGroup.getUrl (x : Metadata) : Except String String :=
  match x.conn.toolingFind "PermissionSetGroup"
      [("DeveloperName", some x.metadataApiName)] with
  | [] => Except.error ("PermissionSetGroup not found for " ++ x.metadataApiName)
  | r :: _ => Except.ok ("lightning/setup/PermSetGroups/page?address=%2F" ++ r.Id)

/-- `ApexClass.getUrl`. -/
def ApexClass.getUrl (x : Metadata) : Except String String :=
  match x.conn.toolingFind "ApexClass" [("Name", some x.metadataApiName)] with
  | [] => Except.error ("ApexClass not found for " ++ x.metadataApiName)
  | r :: _ => Except.ok ("lightning/setup/ApexClasses/page?address=%2F" ++ r.Id)

/-- `ApexTrigger.getUrl`. -/
def ApexTrigger.getUrl (x : Metadata) : Except String String :=
  match x.conn.toolingFind "ApexTrigger" [("Name", some x.metadataApiName)] with
  | [] => Except.error ("ApexTrigger not found for " ++ x.metadataApiName)
  | r :: _ => Except.ok ("lightning/setup/ApexTriggers/page?address=%2F" ++ r.Id)

/-- `Field.getUrl`. Standard fields build the URL directly from the
second-to-last directory segment and the (Id-trimmed) API name; custom fields
go through `getObjectId` and the `CustomField` tooling catalog. -/
def Field.getUrl (x : Metadata) : Except String String :=
  let objectFolderName := objectFolderNameOf x.pathParsed.dir
  if isStandardField x.metadataApiName then
    let m :=
      if jsEndsWith x.metadataApiName "Id" then
        x.metadataApiName.take (x.metadataApiName.length - 2)
      else
        x.metadataApiName
    Except.ok ("lightning/setup/ObjectManager/" ++ objectFolderName ++
      "/FieldsAndRelationships/" ++ m ++ "/view")
  else
    let m := getObjectFieldDeveloperName x.metadataApiName
    match getObjectId x.conn objectFolderName with
    | Except.error e => Except.error e
    | Except.ok objectId =>
      match x.conn.toolingFind "CustomField"
          [("DeveloperName", some m), ("TableEnumOrId", some objectId)] with
      | [] => Except.error ("Field not found for " ++ m)
      | fieldData :: _ =>
        if isCustomMetadata objectFolderName then
          Except.ok ("lightning/setup/CustomMetadata/page?address=%2F" ++ fieldData.Id ++
            "%3Fsetupid%3DCustomMetadata")
        else if isPlatformEvent objectFolderName then
          Except.ok ("lightning/setup/EventObjects/page?address=%2F" ++ fieldData.Id ++
            "%3Fsetupid%3DEventObjects")
        else
          Except.ok ("lightning/setup/ObjectManager/" ++ objectId ++
            "/FieldsAndRelationships/" ++ fieldData.Id ++ "/view")

/-- The fifteen resolver variants the factory can construct. -/
inductive ResolverKind where
  | flow | field | validationRule | flexiPage | profile | permissionSet
  | permissionSetGroup | apexClass | apexTrigger | recordType | pageLayout
  | sObject | globalValueSet | quickAction | approvalProcess
deriving Repr, DecidableEq

/-- `Factory.create`: the JS guard `!conn || !extension || !pathParsed`
(string falsiness is emptiness), then the closed dispatch chain on the
extension token. The returned `ResolverKind` stands for the constructed
resolver instance. -/
def Factory.create (conn : Option Conn) (extension : String)
    (pathParsed : Option ParsedPath) : Except String ResolverKind :=
  if conn.isNone || extension = "" || pathParsed.isNone then
    Except.error "Invalid parameters"
  else if extension = "flow-meta.xml" then Except.ok ResolverKind.flow
  else if extension = "field-meta.xml" then Except.ok ResolverKind.field
  else if extension = "validationRule-meta.xml" then Except.ok ResolverKind.validationRule
  else if extension = "flexipage-meta.xml" then Except.ok ResolverKind.flexiPage
  else if extension = "profile-meta.xml" then Except.ok ResolverKind.profile
  else if extension = "permissionset-meta.xml" then Except.ok ResolverKind.permissionSet
  else if extension = "permissionsetgroup-meta.xml" then Except.ok ResolverKind.permissionSetGroup
  else if extension = "cls" then Except.ok ResolverKind.apexClass
  else if extension = "trigger" then Except.ok ResolverKind.apexTrigger
  else if extension = "recordType-meta.xml" then Except.ok ResolverKind.recordType
  else if extension = "layout-meta.xml" then Except.ok ResolverKind.pageLayout
  else if extension = "object-meta.xml" then Except.ok ResolverKind.sObject
  else if extension = "globalValueSet-meta.xml" then Except.ok ResolverKind.globalValueSet
  else if extension = "quickAction-meta.xml" then Except.ok ResolverKind.quickAction
  else if extension = "approvalProcess-meta.xml" then Except.ok ResolverKind.approvalProcess
  else Except.error "Unsupported metadata type"

/-- Dynamic dispatch of `metadata.getUrl()` over the variant the factory
selected. -/
def dispatchGetUrl (k : ResolverKind) (x : Metadata) : Except String String :=
  match k with
  | ResolverKind.flow => Flow.getUrl x
  | ResolverKind.field => Field.getUrl x
  | ResolverKind.validationRule => ValidationRule.getUrl x
  | ResolverKind.flexiPage => FlexiPage.getUrl x
  | ResolverKind.profile => Profile.getUrl x
  | ResolverKind.permissionSet => PermissionSet.getUrl x
  | ResolverKind.permissionSetGroup => PermissionSetGroup.getUrl x
  | ResolverKind.apexClass => ApexClass.getUrl x
  | ResolverKind.apexTrigger => ApexTrigger.getUrl x
  | ResolverKind.recordType => RecordType.getUrl x
  | ResolverKind.pageLayout => PageLayout.getUrl x
  | ResolverKind.sObject => SObject.getUrl x
  | ResolverKind.globalValueSet => GlobalValueSet.getUrl x
  | ResolverKind.quickAction => QuickAction.getUrl x
  | ResolverKind.approvalProcess => ApprovalProcess.getUrl x

/-- `go`: parse the path, classify, dispatch, resolve, then launch the
browser with `start {url}` (Windows) or `open {url}` (otherwise). The
returned string is the shell command handed to `exec` — the function's sole
observable effect; on error no command is issued. -/
def go (conn : Conn) (pathString : String) (platform : String) :
    Except String String :=
  let pathParsed := pathParse pathString
  let extension := getExtension pathParsed.base
  match Factory.create (some conn) extension (some pathParsed) with
  | Except.error e => Except.error e
  | Except.ok k =>
    match dispatchGetUrl k { conn := conn, extension := extension, pathParsed := pathParsed } with
    | Except.error e => Except.error e
    | Except.ok url =>
      let completeUrl := conn.instanceUrl ++ "/" ++ url
      if isWindows platform then
        Except.ok ("start " ++ completeUrl)
      else
        Except.ok ("open " ++ completeUrl)

/-- Joins segment lists with the character `c` between consecutive segments:
the inverse of `splitOnCharList`, used only to state and prove the
reconstruction property of the path classifier. -/
def joinWithChar (c : Char) : List (List Char) → List Char
  | [] => []
  | [a] => a
  | a :: rest => a ++ c :: joinWithChar c rest

/-- A connection whose every catalog query returns zero records. -/
def connTrivial : Conn :=
  { instanceUrl := "https://example.my.salesforce.com"
    toolingFind := fun _ _ => []
    soqlQuery := fun _ => [] }

/-- A sample object-catalog record. -/
def recObj : SfRecord := { Id := "001OBJECTID", EntityDefinitionId := "ENTITYDEF" }

/-- A sample dependent-catalog record (field, layout, quick action, ...). -/
def recSub : SfRecord := { Id := "00NSUBID", EntityDefinitionId := "ENTITYDEF" }

/-- A connection whose catalogs hold exactly one record per sobject kind. -/
def connSample : Conn :=
  { instanceUrl := "https://example.my.salesforce.com"
    toolingFind := fun name _ =>
      if name = "CustomObject" then [recObj]
      else if name = "CustomField" then [recSub]
      else if name = "FlowDefinition" then [recObj]
      else if name = "Layout" then [recSub]
      else if name = "QuickActionDefinition" then [recSub]
      else []
    soqlQuery := fun _ => [recObj] }

/-! ## Theorems -/

theorem splitOnCharList_ne_nil (c : Char) (s : List Char) : splitOnCharList c s ≠ [] := by
  induction s with
  | nil => simp [splitOnCharList]
  | cons a rest ih =>
    simp only [splitOnCharList]
    split
    · simp
    · split
      · next heq => exact absurd heq ih
      · simp

theorem joinWithChar_cons_cons (c : Char) (a : List Char) (b : List (List Char))
    (hb : b ≠ []) : joinWithChar c (a :: b) = a ++ c :: joinWithChar c b := by
  match b with
  | [] => exact absurd rfl hb
  | x :: xs => rfl

theorem joinWithChar_splitOnCharList (c : Char) (s : List Char) :
    joinWithChar c (splitOnCharList c s) = s := by
  induction s with
  | nil => rfl
  | cons a rest ih =>
    simp only [splitOnCharList]
    by_cases hac : a = c
    · subst hac
      rw [if_pos rfl, joinWithChar_cons_cons _ _ _ (splitOnCharList_ne_nil _ _), ih]
      rfl
    · rw [if_neg hac]
      match hsp : splitOnCharList c rest with
      | [] => exact absurd hsp (splitOnCharList_ne_nil _ _)
      | h :: t =>
        rw [hsp] at ih
        match t with
        | [] =>
          simp only [joinWithChar] at ih ⊢
          rw [ih]
        | y :: ys =>
          rw [joinWithChar_cons_cons _ _ _ (by simp)] at ih
          rw [joinWithChar_cons_cons _ _ _ (by simp), ← ih]
          simp

theorem joinWithChar_append_two (c : Char) (xs : List (List Char)) (hx : xs ≠ [])
    (y : List Char) : joinWithChar c (xs ++ [y]) = joinWithChar c xs ++ c :: y := by
  induction xs with
  | nil => exact absurd rfl hx
  | cons a rest ih =>
    match rest with
    | [] => simp [joinWithChar]
    | b :: bs =>
      have hrec := ih (by simp)
      rw [List.cons_append,
        joinWithChar_cons_cons _ _ _ (by simp),
        joinWithChar_cons_cons _ _ _ (by simp), hrec]
      simp

theorem exists_append_two {α : Type} (l : List α) (h : 2 ≤ l.length) :
    ∃ q a b, l = q ++ [a, b] := by
  match hr : l.reverse with
  | [] =>
    rw [List.reverse_eq_nil_iff] at hr
    subst hr; simp at h
  | [b] =>
    have hl : l = [b] := by rw [← l.reverse_reverse, hr]; rfl
    subst hl; simp at h
  | b :: a :: q =>
    refine ⟨q.reverse, a, b, ?_⟩
    rw [← l.reverse_reverse, hr]
    simp

theorem string_eq_of_data_eq {u v : String} (h : u.data = v.data) : u = v := by
  cases u; cases v; cases h; rfl

theorem string_data_append (u v : String) : (u ++ v).data = u.data ++ v.data := by
  cases u; cases v; rfl

theorem string_length_data (s : String) : s.length = s.data.length := rfl

theorem getD_length_sub_one_eq_getLastD {α : Type} (l : List α) (d : α) :
    l.getD (l.length - 1) d = l.getLastD d := by
  rw [List.getD_eq_get?, ← List.getLast?_eq_get?, List.getLastD_eq_getLast?]

theorem splitOnCharList_reconstruct (c : Char) (s : List Char)
    (parts : List (List Char)) (tok : List Char)
    (hp : parts = splitOnCharList c s)
    (h2 : 2 ≤ parts.length)
    (ht : tok = if 2 < parts.length then
        parts.getD (parts.length - 2) [] ++ c :: parts.getD (parts.length - 1) []
      else parts.getD (parts.length - 1) []) :
    List.take (s.length - (tok.length + 1)) s ++ c :: tok = s := by
  obtain ⟨q, A, B, hqab⟩ := exists_append_two parts h2
  have hs : joinWithChar c parts = s := by
    rw [hp]; exact joinWithChar_splitOnCharList c s
  subst hqab
  cases q with
  | nil =>
    have htok : tok = B := by
      simpa using ht
    have hsv : A ++ c :: B = s := by
      simpa [joinWithChar] using hs
    rw [htok, ← hsv]
    have hlen : (A ++ c :: B).length - (B.length + 1) = A.length := by
      simp only [List.length_append, List.length_cons]
      omega
    rw [hlen, List.take_left' rfl]
  | cons q1 qr =>
    have hgt : 2 < ((q1 :: qr) ++ [A, B]).length := by simp
    have hA : ((q1 :: qr) ++ [A, B]).getD (((q1 :: qr) ++ [A, B]).length - 2) [] = A := by
      rw [List.getD_eq_get?,
        show ((q1 :: qr) ++ [A, B]).length - 2 = (q1 :: qr).length by simp,
        List.get?_append_right (Nat.le_refl _)]
      simp
    have hB : ((q1 :: qr) ++ [A, B]).getD (((q1 :: qr) ++ [A, B]).length - 1) [] = B := by
      rw [List.getD_eq_get?,
        show ((q1 :: qr) ++ [A, B]).length - 1 = (q1 :: qr).length + 1 by simp,
        List.get?_append_right (by simp)]
      simp
    rw [if_pos hgt, hA, hB] at ht
    have hs2 : (joinWithChar c (q1 :: qr) ++ c :: A) ++ c :: B = s := by
      rw [← hs, show (q1 :: qr) ++ [A, B] = ((q1 :: qr) ++ [A]) ++ [B] by simp,
        joinWithChar_append_two _ _ (by simp) _,
        joinWithChar_append_two _ _ (by simp) _]
    subst ht
    subst hs2
    have hlen : ((joinWithChar c (q1 :: qr) ++ c :: A) ++ c :: B).length -
        ((A ++ c :: B).length + 1) = (joinWithChar c (q1 :: qr)).length := by
      simp only [List.length_append, List.length_cons]
      omega
    have hre : (joinWithChar c (q1 :: qr) ++ c :: A) ++ c :: B =
        joinWithChar c (q1 :: qr) ++ c :: (A ++ c :: B) := by
      simp
    rw [hlen, hre, List.take_left' rfl]

theorem jsSplitChar_length (c : Char) (s : String) :
    (jsSplitChar c s).length = (splitOnCharList c s.data).length := by
  simp [jsSplitChar]

theorem jsSplitChar_getD_data (c : Char) (s : String) (i : Nat) :
    ((jsSplitChar c s).getD i "").data = (splitOnCharList c s.data).getD i [] := by
  rw [jsSplitChar, List.getD_eq_get?, List.getD_eq_get?, List.get?_map]
  cases (splitOnCharList c s.data).get? i <;> rfl

theorem getExtension_data (base : String) :
    (getExtension base).data =
      (if 2 < (splitOnCharList '.' base.data).length then
        (splitOnCharList '.' base.data).getD ((splitOnCharList '.' base.data).length - 2) [] ++
          '.' :: (splitOnCharList '.' base.data).getD ((splitOnCharList '.' base.data).length - 1) []
      else (splitOnCharList '.' base.data).getD ((splitOnCharList '.' base.data).length - 1) []) := by
  rw [getExtension]
  by_cases h : 2 < (splitOnCharList '.' base.data).length
  · rw [if_pos (by rw [jsSplitChar_length]; exact h), if_pos h,
      string_data_append, string_data_append]
    rw [jsSplitChar_length, jsSplitChar_getD_data, jsSplitChar_getD_data]
    simp
  · rw [if_neg (by rw [jsSplitChar_length]; exact h), if_neg h,
      jsSplitChar_length, jsSplitChar_getD_data]

/-- C3 counterexample: on `Account.field-meta.xml` the derived API name is
`Account` (the base filename with the token `field-meta.xml` and its
separating dot stripped, exactly as the claim's own general rule demands),
not `Account.field` as the claim's example asserts. -/
theorem c3_counterexample :
    Metadata.metadataApiName ⟨connTrivial, "field-meta.xml", ⟨"", "Account.field-meta.xml"⟩⟩ =
      "Account" ∧
    ("Account" : String) ≠ "Account.field" := by
  exact ⟨by decide, by decide⟩

/-- C3 (amended): for every base filename, the derived metadata-type token is
the last two dot-segments joined by a dot when the filename has more than two
dot-segments and the last segment alone otherwise; whenever the filename has
at least two dot-segments, the derived API name is the base filename with the
token suffix and its separating dot stripped (API name ++ "." ++ token
reconstructs the filename). In particular `Account.field-meta.xml` yields
token `field-meta.xml` and API name `Account`, and `MyClass.cls` yields token
`cls` and API name `MyClass`. -/
theorem c3_path_classifier :
    (∀ base : String,
      (2 < (jsSplitChar '.' base).length →
        getExtension base =
          (jsSplitChar '.' base).getD ((jsSplitChar '.' base).length - 2) "" ++ "." ++
            (jsSplitChar '.' base).getD ((jsSplitChar '.' base).length - 1) "") ∧
      (¬ 2 < (jsSplitChar '.' base).length →
        getExtension base = (jsSplitChar '.' base).getLastD "")) ∧
    (∀ x : Metadata, x.extension = getExtension x.pathParsed.base →
      2 ≤ (jsSplitChar '.' x.pathParsed.base).length →
      x.metadataApiName ++ "." ++ x.extension = x.pathParsed.base) ∧
    getExtension "Account.field-meta.xml" = "field-meta.xml" ∧
    Metadata.metadataApiName ⟨connTrivial, "field-meta.xml", ⟨"", "Account.field-meta.xml"⟩⟩ =
      "Account" ∧
    getExtension "MyClass.cls" = "cls" ∧
    Metadata.metadataApiName ⟨connTrivial, "cls", ⟨"", "MyClass.cls"⟩⟩ = "MyClass" := by
  refine ⟨fun base => ⟨fun h => ?_, fun h => ?_⟩, fun x hx h2 => ?_, by decide, by decide,
    by decide, by decide⟩
  · rw [getExtension]
    rw [if_pos h]
  · rw [getExtension]
    rw [if_neg h, ← getD_length_sub_one_eq_getLastD]
  · apply string_eq_of_data_eq
    rw [string_data_append, string_data_append, Metadata.metadataApiName, hx]
    rw [String.data_take]
    have hb : ("." : String).data = ['.'] := rfl
    rw [hb, getExtension_data, string_length_data]
    have hlen : (getExtension x.pathParsed.base).length =
        (getExtension x.pathParsed.base).data.length := rfl
    rw [hlen, getExtension_data]
    rw [List.append_assoc, List.singleton_append]
    exact splitOnCharList_reconstruct '.' x.pathParsed.base.data _ _ rfl
      (by rw [← jsSplitChar_length]; exact h2) rfl

/-- C3 witness: the reconstruction property applied to the concrete path
`Account.field-meta.xml`. -/
theorem c3_path_classifier_witness :
    Metadata.metadataApiName ⟨connTrivial, "field-meta.xml", ⟨"", "Account.field-meta.xml"⟩⟩ ++
      "." ++ "field-meta.xml" = "Account.field-meta.xml" :=
  c3_path_classifier.2.1 ⟨connTrivial, "field-meta.xml", ⟨"", "Account.field-meta.xml"⟩⟩
    (by decide) (by decide)

/-- C6: `getObjectFieldDeveloperName` splits on the double-underscore
separator and returns the middle segment when there are more than two parts,
otherwise the first segment; in particular `Namespace__Field__c` maps to
`Field` and `Field__c` maps to `Field`. -/
theorem c6_object_field_developer_name (s : String) :
    (2 < (jsSplitDunder s).length →
      getObjectFieldDeveloperName s = (jsSplitDunder s).getD 1 "") ∧
    (¬ 2 < (jsSplitDunder s).length →
      getObjectFieldDeveloperName s = (jsSplitDunder s).getD 0 "") ∧
    getObjectFieldDeveloperName "Namespace__Field__c" = "Field" ∧
    getObjectFieldDeveloperName "Field__c" = "Field" := by
  refine ⟨fun h => ?_, fun h => ?_, by decide, by decide⟩
  · rw [getObjectFieldDeveloperName]
    simp only [if_pos h]
  · rw [getObjectFieldDeveloperName]
    simp only [if_neg h]

/-- C6 witness: the managed-package branch at the concrete input
`Namespace__Field__c`. -/
theorem c6_object_field_developer_name_witness :
    getObjectFieldDeveloperName "Namespace__Field__c" =
      (jsSplitDunder "Namespace__Field__c").getD 1 "" :=
  (c6_object_field_developer_name "Namespace__Field__c").1 (by decide)

/-- C2 counterexample: the empty extension token — reachable from a base
filename ending in a dot, e.g. `x.` — is not among the 15 registered tokens,
yet `Factory.create` fails with `Invalid parameters` (the falsy-argument
guard fires on the empty string), not with `Unsupported metadata type`. -/
theorem c2_counterexample :
    getExtension "x." = "" ∧
    ("" : String) ∉ (["flow-meta.xml", "field-meta.xml", "validationRule-meta.xml",
      "flexipage-meta.xml", "profile-meta.xml", "permissionset-meta.xml",
      "permissionsetgroup-meta.xml", "cls", "trigger", "recordType-meta.xml",
      "layout-meta.xml", "object-meta.xml", "globalValueSet-meta.xml",
      "quickAction-meta.xml", "approvalProcess-meta.xml"] : List String) ∧
    Factory.create (some connTrivial) "" (some ⟨"", "x."⟩) =
      Except.error "Invalid parameters" ∧
    Factory.create (some connTrivial) "" (some ⟨"", "x."⟩) ≠
      Except.error "Unsupported metadata type" := by
  refine ⟨by decide, by decide, rfl, fun h => ?_⟩
  rw [show Factory.create (some connTrivial) "" (some ⟨"", "x."⟩) =
    Except.error "Invalid parameters" from rfl] at h
  exact absurd (Except.error.inj h) (by decide)

/-- C2 (amended): every nonempty metadata-type token outside the fixed table
of 15 registered tokens makes `Factory.create` fail with
`Unsupported metadata type` (the empty token instead trips the
missing-argument guard and fails with `Invalid parameters`), and it never
silently selects a default resolver; each of the 15 registered tokens maps to
exactly its corresponding resolver variant. -/
theorem c2_dispatch_closed_world (conn : Conn) (pp : ParsedPath) :
    (∀ extension : String, extension ≠ "" →
      extension ∉ (["flow-meta.xml", "field-meta.xml", "validationRule-meta.xml",
        "flexipage-meta.xml", "profile-meta.xml", "permissionset-meta.xml",
        "permissionsetgroup-meta.xml", "cls", "trigger", "recordType-meta.xml",
        "layout-meta.xml", "object-meta.xml", "globalValueSet-meta.xml",
        "quickAction-meta.xml", "approvalProcess-meta.xml"] : List String) →
      Factory.create (some conn) extension (some pp) =
        Except.error "Unsupported metadata type") ∧
    Factory.create (some conn) "flow-meta.xml" (some pp) = Except.ok ResolverKind.flow ∧
    Factory.create (some conn) "field-meta.xml" (some pp) = Except.ok ResolverKind.field ∧
    Factory.create (some conn) "validationRule-meta.xml" (some pp) =
      Except.ok ResolverKind.validationRule ∧
    Factory.create (some conn) "flexipage-meta.xml" (some pp) = Except.ok ResolverKind.flexiPage ∧
    Factory.create (some conn) "profile-meta.xml" (some pp) = Except.ok ResolverKind.profile ∧
    Factory.create (some conn) "permissionset-meta.xml" (some pp) =
      Except.ok ResolverKind.permissionSet ∧
    Factory.create (some conn) "permissionsetgroup-meta.xml" (some pp) =
      Except.ok ResolverKind.permissionSetGroup ∧
    Factory.create (some conn) "cls" (some pp) = Except.ok ResolverKind.apexClass ∧
    Factory.create (some conn) "trigger" (some pp) = Except.ok ResolverKind.apexTrigger ∧
    Factory.create (some conn) "recordType-meta.xml" (some pp) =
      Except.ok ResolverKind.recordType ∧
    Factory.create (some conn) "layout-meta.xml" (some pp) = Except.ok ResolverKind.pageLayout ∧
    Factory.create (some conn) "object-meta.xml" (some pp) = Except.ok ResolverKind.sObject ∧
    Factory.create (some conn) "globalValueSet-meta.xml" (some pp) =
      Except.ok ResolverKind.globalValueSet ∧
    Factory.create (some conn) "quickAction-meta.xml" (some pp) =
      Except.ok ResolverKind.quickAction ∧
    Factory.create (some conn) "approvalProcess-meta.xml" (some pp) =
      Except.ok ResolverKind.approvalProcess := by
  refine ⟨fun extension h0 hmem => ?_, rfl, rfl, rfl, rfl, rfl, rfl, rfl, rfl, rfl, rfl,
    rfl, rfl, rfl, rfl, rfl⟩
  simp only [List.mem_cons, List.not_mem_nil, or_false, not_or] at hmem
  obtain ⟨n1, n2, n3, n4, n5, n6, n7, n8, n9, n10, n11, n12, n13, n14, n15⟩ := hmem
  simp [Factory.create, h0, n1, n2, n3, n4, n5, n6, n7, n8, n9, n10, n11, n12, n13, n14, n15]

/-- C2 witness: dispatch on the unregistered token `foo.bar` fails with
`Unsupported metadata type`. -/
theorem c2_dispatch_closed_world_witness :
    Factory.create (some connTrivial) "foo.bar" (some ⟨"", "a.foo.bar"⟩) =
      Except.error "Unsupported metadata type" :=
  (c2_dispatch_closed_world connTrivial ⟨"", "a.foo.bar"⟩).1 "foo.bar" (by decide) (by decide)

theorem field_getUrl_standard (x : Metadata)
    (h : isStandardField x.metadataApiName = true) :
    Field.getUrl x =
      Except.ok ("lightning/setup/ObjectManager/" ++
        objectFolderNameOf x.pathParsed.dir ++
        "/FieldsAndRelationships/" ++
        (if jsEndsWith x.metadataApiName "Id" then
          x.metadataApiName.take (x.metadataApiName.length - 2)
        else x.metadataApiName) ++ "/view") := by
  obtain ⟨co, ex, pp⟩ := x
  simp only [Metadata.metadataApiName] at h
  simp [Field.getUrl, Metadata.metadataApiName, h]

/-- C5: for every field API name classified as standard (not ending in
`__c`), `Field.getUrl` issues no catalog query — its result does not depend
on the connection at all — and it builds the URL directly from the
second-to-last directory segment and the API name with a trailing `Id`
suffix trimmed. -/
theorem c5_standard_field_no_query (x : Metadata)
    (h : isStandardField x.metadataApiName = true) :
    (∀ c1 c2 : Conn,
      Field.getUrl { x with conn := c1 } = Field.getUrl { x with conn := c2 }) ∧
    Field.getUrl x =
      Except.ok ("lightning/setup/ObjectManager/" ++
        objectFolderNameOf x.pathParsed.dir ++
        "/FieldsAndRelationships/" ++
        (if jsEndsWith x.metadataApiName "Id" then
          x.metadataApiName.take (x.metadataApiName.length - 2)
        else x.metadataApiName) ++ "/view") := by
  constructor
  · intro c1 c2
    rw [field_getUrl_standard { x with conn := c1 } h,
      field_getUrl_standard { x with conn := c2 } h]
    rfl
  · exact field_getUrl_standard x h

/-- C5 witness: the standard field `Name` of `Account` resolves without any
catalog data (`connTrivial` returns zero records everywhere). -/
theorem c5_standard_field_no_query_witness :
    Field.getUrl ⟨connTrivial, "field-meta.xml",
        ⟨"force-app/main/default/objects/Account/fields", "Name.field-meta.xml"⟩⟩ =
      Except.ok ("lightning/setup/ObjectManager/" ++
        objectFolderNameOf "force-app/main/default/objects/Account/fields" ++
        "/FieldsAndRelationships/" ++
        (if jsEndsWith "Name" "Id" then ("Name" : String).take ("Name".length - 2)
        else "Name") ++ "/view") :=
  (c5_standard_field_no_query ⟨connTrivial, "field-meta.xml",
    ⟨"force-app/main/default/objects/Account/fields", "Name.field-meta.xml"⟩⟩ (by decide)).2

/-- C9: the standard-field branch of `Field.getUrl` always succeeds (it has
no failure path), and the trailing-`Id` trim applies to any standard name
ending in `Id`; in particular the field named exactly `Id` is trimmed to the
empty string, yielding a URL with an empty field segment
(`.../FieldsAndRelationships//view`). -/
theorem c9_standard_field_total (x : Metadata)
    (h : isStandardField x.metadataApiName = true) :
    (∃ u, Field.getUrl x = Except.ok u) ∧
    (jsEndsWith x.metadataApiName "Id" = true →
      Field.getUrl x =
        Except.ok ("lightning/setup/ObjectManager/" ++
          objectFolderNameOf x.pathParsed.dir ++
          "/FieldsAndRelationships/" ++
          x.metadataApiName.take (x.metadataApiName.length - 2) ++ "/view")) ∧
    Field.getUrl ⟨connTrivial, "field-meta.xml",
        ⟨"force-app/main/default/objects/Account/fields", "Id.field-meta.xml"⟩⟩ =
      Except.ok "lightning/setup/ObjectManager/Account/FieldsAndRelationships//view" := by
  refine ⟨⟨_, field_getUrl_standard x h⟩, fun hid => ?_, rfl⟩
  rw [field_getUrl_standard x h]
  simp [hid]

/-- C9 witness: the standard-field branch succeeds on `Name` with an empty
catalog. -/
theorem c9_standard_field_total_witness :
    ∃ u, Field.getUrl ⟨connTrivial, "field-meta.xml",
      ⟨"force-app/main/default/objects/Account/fields", "Name.field-meta.xml"⟩⟩ =
        Except.ok u :=
  (c9_standard_field_total ⟨connTrivial, "field-meta.xml",
    ⟨"force-app/main/default/objects/Account/fields", "Name.field-meta.xml"⟩⟩ (by decide)).1

theorem splitOnCharList_of_not_mem (c : Char) (s : List Char) (h : c ∉ s) :
    splitOnCharList c s = [s] := by
  induction s with
  | nil => rfl
  | cons a rest ih =>
    simp only [List.mem_cons, not_or] at h
    obtain ⟨h1, h2⟩ := h
    simp only [splitOnCharList, ih h2]
    rw [if_neg (fun hh => h1 (Eq.symm hh))]

/-- C10: for every API name containing no dot, the `.`-split has no second
segment, and the ApprovalProcess and QuickAction resolvers issue their
catalog query with the absent (`undefined`) developer name — the SOQL
template interpolates the literal string `undefined`, the tooling filter
carries an absent value — instead of failing with an invalid-input error. -/
theorem c10_missing_dot_segment (x : Metadata)
    (h : '.' ∉ x.metadataApiName.data) :
    (jsSplitChar '.' x.metadataApiName).get? 1 = none ∧
    ApprovalProcess.getUrl x =
      (match x.conn.soqlQuery
          "SELECT Id FROM ProcessDefinition WHERE DeveloperName = 'undefined' AND Type = 'Approval'" with
        | [] => Except.error ("Approval process not found for " ++ x.metadataApiName)
        | r :: _ => Except.ok ("lightning/setup/ApprovalProcesses/page?address=%2F" ++ r.Id)) ∧
    QuickAction.getUrl x =
      (match getObjectId x.conn x.metadataApiName with
        | Except.error e => Except.error e
        | Except.ok objectId =>
          match x.conn.toolingFind "QuickActionDefinition"
              [("DeveloperName", (none : Option String))] with
          | [] => Except.error "QuickAction not found for undefined"
          | r :: _ => Except.ok ("lightning/setup/ObjectManager/" ++ objectId ++
              "/ButtonsLinksActions/" ++ r.Id ++ "/view")) := by
  have hsplit : jsSplitChar '.' x.metadataApiName = [x.metadataApiName] := by
    rw [jsSplitChar, splitOnCharList_of_not_mem _ _ h]
    rfl
  refine ⟨by rw [hsplit]; rfl, ?_, ?_⟩
  · rw [ApprovalProcess.getUrl, hsplit]
    rfl
  · rw [QuickAction.getUrl, hsplit]
    rfl

/-- C10 witness: at the dotless API name `MyProc` with an empty catalog, the
ApprovalProcess resolver reaches its query (developer name `undefined`) and
reports the not-found error rather than an invalid-input error. -/
theorem c10_missing_dot_segment_witness :
    ApprovalProcess.getUrl ⟨connTrivial, "approvalProcess-meta.xml",
        ⟨"", "MyProc.approvalProcess-meta.xml"⟩⟩ =
      Except.error "Approval process not found for MyProc" := by
  rw [(c10_missing_dot_segment ⟨connTrivial, "approvalProcess-meta.xml",
    ⟨"", "MyProc.approvalProcess-meta.xml"⟩⟩ (by decide)).2.1]
  rfl

/-- C1: for every resolver variant, `getUrl` fails with a "not found" error
naming the searched entity whenever a required catalog query returns zero
matching records, and it never returns a URL built from an absent record;
more than one match is not an error — the first returned record builds the
URL. -/
theorem c1_zero_matches_fail_first_match_wins (x : Metadata) :
    (x.conn.toolingFind "FlowDefinition" [("DeveloperName", some x.metadataApiName)] = [] →
      Flow.getUrl x = Except.error ("Flow not found for " ++ x.metadataApiName)) ∧
    (∀ r t, x.conn.toolingFind "FlowDefinition" [("DeveloperName", some x.metadataApiName)] =
        r :: t →
      Flow.getUrl x = Except.ok ("lightning/setup/Flows/page?address=%2F" ++ r.Id)) ∧
    (x.conn.toolingFind "ValidationRule" [("ValidationName", some x.metadataApiName)] = [] →
      ValidationRule.getUrl x =
        Except.error ("ValidationRule not found for " ++ x.metadataApiName)) ∧
    (∀ r t, x.conn.toolingFind "ValidationRule" [("ValidationName", some x.metadataApiName)] =
        r :: t →
      ValidationRule.getUrl x = Except.ok ("lightning/setup/ObjectManager/" ++
        r.EntityDefinitionId ++ "/ValidationRules/" ++ r.Id ++ "/view")) ∧
    (x.conn.toolingFind "FlexiPage" [("DeveloperName", some x.metadataApiName)] = [] →
      FlexiPage.getUrl x = Except.error ("FlexiPage not found for " ++ x.metadataApiName)) ∧
    (∀ r t, x.conn.toolingFind "FlexiPage" [("DeveloperName", some x.metadataApiName)] = r :: t →
      FlexiPage.getUrl x = Except.ok ("visualEditor/appBuilder.app?id=" ++ r.Id)) ∧
    (x.conn.toolingFind "Profile" [("Name", some x.metadataApiName)] = [] →
      Profile.getUrl x = Except.error ("Profile not found for " ++ x.metadataApiName)) ∧
    (∀ r t, x.conn.toolingFind "Profile" [("Name", some x.metadataApiName)] = r :: t →
      Profile.getUrl x =
        Except.ok ("lightning/setup/EnhancedProfiles/page?address=%2F" ++ r.Id)) ∧
    (x.conn.toolingFind "PermissionSet" [("Name", some x.metadataApiName)] = [] →
      PermissionSet.getUrl x =
        Except.error ("PermissionSet not found for " ++ x.metadataApiName)) ∧
    (∀ r t, x.conn.toolingFind "PermissionSet" [("Name", some x.metadataApiName)] = r :: t →
      PermissionSet.getUrl x =
        Except.ok ("lightning/setup/PermSets/page?address=%2F" ++ r.Id)) ∧
    (x.conn.toolingFind "PermissionSetGroup" [("DeveloperName", some x.metadataApiName)] = [] →
      PermissionSetGroup.getUrl x =
        Except.error ("PermissionSetGroup not found for " ++ x.metadataApiName)) ∧
    (∀ r t, x.conn.toolingFind "PermissionSetGroup"
        [("DeveloperName", some x.metadataApiName)] = r :: t →
      PermissionSetGroup.getUrl x =
        Except.ok ("lightning/setup/PermSetGroups/page?address=%2F" ++ r.Id)) ∧
    (x.conn.toolingFind "ApexClass" [("Name", some x.metadataApiName)] = [] →
      ApexClass.getUrl x = Except.error ("ApexClass not found for " ++ x.metadataApiName)) ∧
    (∀ r t, x.conn.toolingFind "ApexClass" [("Name", some x.metadataApiName)] = r :: t →
      ApexClass.getUrl x =
        Except.ok ("lightning/setup/ApexClasses/page?address=%2F" ++ r.Id)) ∧
    (x.conn.toolingFind "ApexTrigger" [("Name", some x.metadataApiName)] = [] →
      ApexTrigger.getUrl x =
        Except.error ("ApexTrigger not found for " ++ x.metadataApiName)) ∧
    (∀ r t, x.conn.toolingFind "ApexTrigger" [("Name", some x.metadataApiName)] = r :: t →
      ApexTrigger.getUrl x =
        Except.ok ("lightning/setup/ApexTriggers/page?address=%2F" ++ r.Id)) ∧
    (x.conn.toolingFind "GlobalValueSet" [("DeveloperName", some x.metadataApiName)] = [] →
      GlobalValueSet.getUrl x =
        Except.error ("GlobalValueSet not found for " ++ x.metadataApiName)) ∧
    (∀ r t, x.conn.toolingFind "GlobalValueSet" [("DeveloperName", some x.metadataApiName)] =
        r :: t →
      GlobalValueSet.getUrl x =
        Except.ok ("lightning/setup/Picklists/page?address=%2F" ++ r.Id)) ∧
    (x.conn.soqlQuery ("SELECT Id FROM ProcessDefinition WHERE DeveloperName = '" ++
        jsTemplate ((jsSplitChar '.' x.metadataApiName).get? 1) ++
        "' AND Type = 'Approval'") = [] →
      ApprovalProcess.getUrl x =
        Except.error ("Approval process not found for " ++ x.metadataApiName)) ∧
    (∀ r t, x.conn.soqlQuery ("SELECT Id FROM ProcessDefinition WHERE DeveloperName = '" ++
        jsTemplate ((jsSplitChar '.' x.metadataApiName).get? 1) ++
        "' AND Type = 'Approval'") = r :: t →
      ApprovalProcess.getUrl x =
        Except.ok ("lightning/setup/ApprovalProcesses/page?address=%2F" ++ r.Id)) ∧
    (x.conn.toolingFind "CustomObject"
        [("DeveloperName", some (getObjectFieldDeveloperName x.metadataApiName))] = [] →
      SObject.getUrl x = Except.error ("Object not found for " ++ x.metadataApiName)) ∧
    (∀ r t, x.conn.toolingFind "CustomObject"
        [("DeveloperName", some (getObjectFieldDeveloperName x.metadataApiName))] = r :: t →
      SObject.getUrl x =
        (if isCustomMetadata x.metadataApiName then
          Except.ok ("lightning/setup/CustomMetadata/page?address=%2F" ++ r.Id ++
            "%3Fsetupid%3DCustomMetadata")
        else if isPlatformEvent x.metadataApiName then
          Except.ok ("lightning/setup/EventObjects/page?address=%2F" ++ r.Id ++
            "%3Fsetupid%3DEventObjects")
        else
          Except.ok ("lightning/setup/ObjectManager/" ++ r.Id ++ "/Details/view"))) ∧
    (x.conn.toolingFind "CustomObject"
        [("DeveloperName", some (getObjectFieldDeveloperName
          ((jsSplitChar '.' x.metadataApiName).getD 0 "")))] = [] →
      QuickAction.getUrl x =
        Except.error ("Object not found for " ++ (jsSplitChar '.' x.metadataApiName).getD 0 "")) ∧
    (∀ r t, x.conn.toolingFind "CustomObject"
        [("DeveloperName", some (getObjectFieldDeveloperName
          ((jsSplitChar '.' x.metadataApiName).getD 0 "")))] = r :: t →
      x.conn.toolingFind "QuickActionDefinition"
        [("DeveloperName", (jsSplitChar '.' x.metadataApiName).get? 1)] = [] →
      QuickAction.getUrl x = Except.error ("QuickAction not found for " ++
        jsTemplate ((jsSplitChar '.' x.metadataApiName).get? 1))) ∧
    (∀ r t r2 t2, x.conn.toolingFind "CustomObject"
        [("DeveloperName", some (getObjectFieldDeveloperName
          ((jsSplitChar '.' x.metadataApiName).getD 0 "")))] = r :: t →
      x.conn.toolingFind "QuickActionDefinition"
        [("DeveloperName", (jsSplitChar '.' x.metadataApiName).get? 1)] = r2 :: t2 →
      QuickAction.getUrl x = Except.ok ("lightning/setup/ObjectManager/" ++ r.Id ++
        "/ButtonsLinksActions/" ++ r2.Id ++ "/view")) ∧
    (x.conn.toolingFind "CustomObject"
        [("DeveloperName", some (getObjectFieldDeveloperName
          ((jsSplitChar '-' x.metadataApiName).getD 0 "")))] = [] →
      PageLayout.getUrl x =
        Except.error ("Object not found for " ++ (jsSplitChar '-' x.metadataApiName).getD 0 "")) ∧
    (∀ r t, x.conn.toolingFind "CustomObject"
        [("DeveloperName", some (getObjectFieldDeveloperName
          ((jsSplitChar '-' x.metadataApiName).getD 0 "")))] = r :: t →
      x.conn.toolingFind "Layout"
        [("Name", some (decodeURIComponent
          (jsTemplate ((jsSplitChar '-' x.metadataApiName).get? 1))))] = [] →
      PageLayout.getUrl x = Except.error ("Layout not found for " ++
        jsTemplate ((jsSplitChar '-' x.metadataApiName).get? 1))) ∧
    (∀ r t r2 t2, x.conn.toolingFind "CustomObject"
        [("DeveloperName", some (getObjectFieldDeveloperName
          ((jsSplitChar '-' x.metadataApiName).getD 0 "")))] = r :: t →
      x.conn.toolingFind "Layout"
        [("Name", some (decodeURIComponent
          (jsTemplate ((jsSplitChar '-' x.metadataApiName).get? 1))))] = r2 :: t2 →
      PageLayout.getUrl x = Except.ok ("lightning/setup/ObjectManager/" ++ r.Id ++
        "/PageLayouts/" ++ r2.Id ++ "/view")) ∧
    (x.conn.toolingFind "CustomObject"
        [("DeveloperName", some (getObjectFieldDeveloperName
          (objectFolderNameOf x.pathParsed.dir)))] = [] →
      RecordType.getUrl x =
        Except.error ("Object not found for " ++ objectFolderNameOf x.pathParsed.dir)) ∧
    (∀ r t, x.conn.toolingFind "CustomObject"
        [("DeveloperName", some (getObjectFieldDeveloperName
          (objectFolderNameOf x.pathParsed.dir)))] = r :: t →
      x.conn.soqlQuery ("SELECT Id, DeveloperName FROM RecordType WHERE DeveloperName = '" ++
        x.metadataApiName ++ "'") = [] →
      RecordType.getUrl x =
        Except.error ("RecordType not found for " ++ x.metadataApiName)) ∧
    (∀ r t r2 t2, x.conn.toolingFind "CustomObject"
        [("DeveloperName", some (getObjectFieldDeveloperName
          (objectFolderNameOf x.pathParsed.dir)))] = r :: t →
      x.conn.soqlQuery ("SELECT Id, DeveloperName FROM RecordType WHERE DeveloperName = '" ++
        x.metadataApiName ++ "'") = r2 :: t2 →
      RecordType.getUrl x = Except.ok ("lightning/setup/ObjectManager/" ++ r.Id ++
        "/RecordTypes/" ++ r2.Id ++ "/view")) ∧
    (isStandardField x.metadataApiName = false →
      x.conn.toolingFind "CustomObject"
        [("DeveloperName", some (getObjectFieldDeveloperName
          (objectFolderNameOf x.pathParsed.dir)))] = [] →
      Field.getUrl x =
        Except.error ("Object not found for " ++ objectFolderNameOf x.pathParsed.dir)) ∧
    (∀ r t, isStandardField x.metadataApiName = false →
      x.conn.toolingFind "CustomObject"
        [("DeveloperName", some (getObjectFieldDeveloperName
          (objectFolderNameOf x.pathParsed.dir)))] = r :: t →
      x.conn.toolingFind "CustomField"
        [("DeveloperName", some (getObjectFieldDeveloperName x.metadataApiName)),
         ("TableEnumOrId", some r.Id)] = [] →
      Field.getUrl x = Except.error ("Field not found for " ++
        getObjectFieldDeveloperName x.metadataApiName)) ∧
    (∀ r t r2 t2, isStandardField x.metadataApiName = false →
      x.conn.toolingFind "CustomObject"
        [("DeveloperName", some (getObjectFieldDeveloperName
          (objectFolderNameOf x.pathParsed.dir)))] = r :: t →
      x.conn.toolingFind "CustomField"
        [("DeveloperName", some (getObjectFieldDeveloperName x.metadataApiName)),
         ("TableEnumOrId", some r.Id)] = r2 :: t2 →
      Field.getUrl x =
        (if isCustomMetadata (objectFolderNameOf x.pathParsed.dir) then
          Except.ok ("lightning/setup/CustomMetadata/page?address=%2F" ++ r2.Id ++
            "%3Fsetupid%3DCustomMetadata")
        else if isPlatformEvent (objectFolderNameOf x.pathParsed.dir) then
          Except.ok ("lightning/setup/EventObjects/page?address=%2F" ++ r2.Id ++
            "%3Fsetupid%3DEventObjects")
        else
          Except.ok ("lightning/setup/ObjectManager/" ++ r.Id ++
            "/FieldsAndRelationships/" ++ r2.Id ++ "/view"))) := by
  refine ⟨fun h => by simp [Flow.getUrl, h],
    fun r t h => by simp [Flow.getUrl, h],
    fun h => by simp [ValidationRule.getUrl, h],
    fun r t h => by simp [ValidationRule.getUrl, h],
    fun h => by simp [FlexiPage.getUrl, h],
    fun r t h => by simp [FlexiPage.getUrl, h],
    fun h => by simp [Profile.getUrl, h],
    fun r t h => by simp [Profile.getUrl, h],
    fun h => by simp [PermissionSet.getUrl, h],
    fun r t h => by simp [PermissionSet.getUrl, h],
    fun h => by simp [PermissionSetGroup.getUrl, h],
    fun r t h => by simp [PermissionSetGroup.getUrl, h],
    fun h => by simp [ApexClass.getUrl, h],
    fun r t h => by simp [ApexClass.getUrl, h],
    fun h => by simp [ApexTrigger.getUrl, h],
    fun r t h => by simp [ApexTrigger.getUrl, h],
    fun h => by simp [GlobalValueSet.getUrl, h],
    fun r t h => by simp [GlobalValueSet.getUrl, h],
    fun h => by
      simp only [List.get?_eq_getElem?] at h
      simp [ApprovalProcess.getUrl, h],
    fun r t h => by
      simp only [List.get?_eq_getElem?] at h
      simp [ApprovalProcess.getUrl, h],
    fun h => by simp [SObject.getUrl, getObjectId, h],
    fun r t h => by simp [SObject.getUrl, getObjectId, h],
    fun h => by
      simp only [List.getD_eq_getElem?_getD] at h
      simp [QuickAction.getUrl, getObjectId, h],
    fun r t h h2 => by
      simp only [List.getD_eq_getElem?_getD] at h
      simp only [List.get?_eq_getElem?] at h2
      simp [QuickAction.getUrl, getObjectId, h, h2],
    fun r t r2 t2 h h2 => by
      simp only [List.getD_eq_getElem?_getD] at h
      simp only [List.get?_eq_getElem?] at h2
      simp [QuickAction.getUrl, getObjectId, h, h2],
    fun h => by
      simp only [List.getD_eq_getElem?_getD] at h
      simp [PageLayout.getUrl, getObjectId, h],
    fun r t h h2 => by
      simp only [List.getD_eq_getElem?_getD] at h
      simp only [List.get?_eq_getElem?] at h2
      simp [PageLayout.getUrl, getObjectId, h, h2],
    fun r t r2 t2 h h2 => by
      simp only [List.getD_eq_getElem?_getD] at h
      simp only [List.get?_eq_getElem?] at h2
      simp [PageLayout.getUrl, getObjectId, h, h2],
    fun h => by simp [RecordType.getUrl, getObjectId, h],
    fun r t h h2 => by simp [RecordType.getUrl, getObjectId, h, h2],
    fun r t r2 t2 h h2 => by simp [RecordType.getUrl, getObjectId, h, h2],
    fun hsf h => by simp [Field.getUrl, getObjectId, hsf, h],
    fun r t hsf h h2 => by simp [Field.getUrl, getObjectId, hsf, h, h2],
    fun r t r2 t2 hsf h h2 => by simp [Field.getUrl, getObjectId, hsf, h, h2]⟩

/-- C1 witness: with an empty catalog the Flow resolver reports
`Flow not found for MyFlow`; with a one-record catalog it returns the URL
built from that first record. -/
theorem c1_zero_matches_fail_first_match_wins_witness :
    Flow.getUrl ⟨connTrivial, "flow-meta.xml", ⟨"", "MyFlow.flow-meta.xml"⟩⟩ =
      Except.error ("Flow not found for " ++
        Metadata.metadataApiName ⟨connTrivial, "flow-meta.xml", ⟨"", "MyFlow.flow-meta.xml"⟩⟩) ∧
    Flow.getUrl ⟨connSample, "flow-meta.xml", ⟨"", "MyFlow.flow-meta.xml"⟩⟩ =
      Except.ok ("lightning/setup/Flows/page?address=%2F" ++ recObj.Id) :=
  ⟨(c1_zero_matches_fail_first_match_wins
      ⟨connTrivial, "flow-meta.xml", ⟨"", "MyFlow.flow-meta.xml"⟩⟩).1 rfl,
   (c1_zero_matches_fail_first_match_wins
      ⟨connSample, "flow-meta.xml", ⟨"", "MyFlow.flow-meta.xml"⟩⟩).2.1 recObj [] rfl⟩

/-- C4: for a field path with enclosing object directory `Account` and base
filename `MyField__c.field-meta.xml`, when the custom-object lookup for
`Account` returns a record and the `CustomField` query keyed by developer
name `MyField` and that object id returns a record, the Field resolver
returns `lightning/setup/ObjectManager/{objId}/FieldsAndRelationships/{fieldId}/view`. -/
theorem c4_custom_field_end_to_end (conn : Conn) (objRec fRec : SfRecord)
    (objRest fRest : List SfRecord)
    (h1 : conn.toolingFind "CustomObject" [("DeveloperName", some "Account")] =
      objRec :: objRest)
    (h2 : conn.toolingFind "CustomField"
      [("DeveloperName", some "MyField"), ("TableEnumOrId", some objRec.Id)] =
      fRec :: fRest) :
    Field.getUrl ⟨conn, "field-meta.xml",
        ⟨"force-app/main/default/objects/Account/fields", "MyField__c.field-meta.xml"⟩⟩ =
      Except.ok ("lightning/setup/ObjectManager/" ++ objRec.Id ++
        "/FieldsAndRelationships/" ++ fRec.Id ++ "/view") := by
  have hm : Metadata.metadataApiName ⟨conn, "field-meta.xml",
      ⟨"force-app/main/default/objects/Account/fields", "MyField__c.field-meta.xml"⟩⟩ =
      "MyField__c" := by
    show ("MyField__c.field-meta.xml" : String).take
        ("MyField__c.field-meta.xml".length - ("field-meta.xml".length + 1)) = "MyField__c"
    decide
  have hof : objectFolderNameOf "force-app/main/default/objects/Account/fields" =
      "Account" := by decide
  have hsf : isStandardField "MyField__c" = false := by decide
  have hdev : getObjectFieldDeveloperName "MyField__c" = "MyField" := by decide
  have hdev2 : getObjectFieldDeveloperName "Account" = "Account" := by decide
  have hcm : isCustomMetadata "Account" = false := by decide
  have hpe : isPlatformEvent "Account" = false := by decide
  simp [Field.getUrl, getObjectId, hm, hof, hsf, hdev, hdev2, hcm, hpe, h1, h2]

/-- C4 witness: the end-to-end field resolution on the one-record catalog. -/
theorem c4_custom_field_end_to_end_witness :
    Field.getUrl ⟨connSample, "field-meta.xml",
        ⟨"force-app/main/default/objects/Account/fields", "MyField__c.field-meta.xml"⟩⟩ =
      Except.ok ("lightning/setup/ObjectManager/" ++ recObj.Id ++
        "/FieldsAndRelationships/" ++ recSub.Id ++ "/view") :=
  c4_custom_field_end_to_end connSample recObj recSub [] [] rfl rfl

/-- C7: the PageLayout resolver splits the API name on `-`, uses the part
before the separator as the object name for the object-id lookup and the
URL-decoded second half as the layout `Name` in the layout catalog query,
and on success returns
`lightning/setup/ObjectManager/{objectId}/PageLayouts/{id}/view`. -/
theorem c7_page_layout (x : Metadata) (objectName layoutEnc : String)
    (hsplit : jsSplitChar '-' x.metadataApiName = [objectName, layoutEnc])
    (r1 r2 : SfRecord) (t1 t2 : List SfRecord)
    (h1 : x.conn.toolingFind "CustomObject"
      [("DeveloperName", some (getObjectFieldDeveloperName objectName))] = r1 :: t1)
    (h2 : x.conn.toolingFind "Layout"
      [("Name", some (decodeURIComponent layoutEnc))] = r2 :: t2) :
    PageLayout.getUrl x = Except.ok ("lightning/setup/ObjectManager/" ++ r1.Id ++
      "/PageLayouts/" ++ r2.Id ++ "/view") := by
  simp only [PageLayout.getUrl, hsplit]
  simp [getObjectId, jsTemplate, h1, h2]

set_option maxRecDepth 4096 in
/-- C7 witness: layout `Account-Account%20Layout` resolves against the
one-record catalog (the layout name is URL-decoded to `Account Layout`). -/
theorem c7_page_layout_witness :
    PageLayout.getUrl ⟨connSample, "layout-meta.xml",
        ⟨"", "Account-Account%20Layout.layout-meta.xml"⟩⟩ =
      Except.ok ("lightning/setup/ObjectManager/" ++ recObj.Id ++
        "/PageLayouts/" ++ recSub.Id ++ "/view") :=
  c7_page_layout ⟨connSample, "layout-meta.xml",
      ⟨"", "Account-Account%20Layout.layout-meta.xml"⟩⟩
    "Account" "Account%20Layout" (by decide) recObj recSub [] [] rfl rfl

/-- C8: on successful resolution `go` launches the browser at exactly the
org base URL, a `/`, and the resolver's relative URL, via the OS command
`start` on Windows and `open` otherwise; when resolution fails no browser
command is issued (the error propagates instead). -/
theorem c8_launcher (conn : Conn) (pathString platform : String) :
    (∀ k url, Factory.create (some conn) (getExtension (pathParse pathString).base)
        (some (pathParse pathString)) = Except.ok k →
      dispatchGetUrl k ⟨conn, getExtension (pathParse pathString).base, pathParse pathString⟩ =
        Except.ok url →
      go conn pathString platform =
        Except.ok ((if isWindows platform then "start " else "open ") ++
          (conn.instanceUrl ++ "/" ++ url))) ∧
    (∀ e, Factory.create (some conn) (getExtension (pathParse pathString).base)
        (some (pathParse pathString)) = Except.error e →
      go conn pathString platform = Except.error e) ∧
    (∀ k e, Factory.create (some conn) (getExtension (pathParse pathString).base)
        (some (pathParse pathString)) = Except.ok k →
      dispatchGetUrl k ⟨conn, getExtension (pathParse pathString).base, pathParse pathString⟩ =
        Except.error e →
      go conn pathString platform = Except.error e) := by
  refine ⟨fun k url hk hu => ?_, fun e he => ?_, fun k e hk hu => ?_⟩
  · simp only [go, hk, hu]
    by_cases hw : isWindows platform <;> simp [hw]
  · simp [go, he]
  · simp [go, hk, hu]

/-- C8 witness: resolving `MyFlow.flow-meta.xml` against the one-record
catalog launches `open {orgBaseUrl}/{relativeUrl}` on a non-Windows platform
and `start {orgBaseUrl}/{relativeUrl}` on Windows. -/
theorem c8_launcher_witness :
    go connSample "MyFlow.flow-meta.xml" "linux" =
      Except.ok ((if isWindows "linux" then "start " else "open ") ++
        (connSample.instanceUrl ++ "/" ++ "lightning/setup/Flows/page?address=%2F001OBJECTID")) ∧
    go connSample "MyFlow.flow-meta.xml" "win32" =
      Except.ok ((if isWindows "win32" then "start " else "open ") ++
        (connSample.instanceUrl ++ "/" ++ "lightning/setup/Flows/page?address=%2F001OBJECTID")) :=
  ⟨(c8_launcher connSample "MyFlow.flow-meta.xml" "linux").1 ResolverKind.flow
      "lightning/setup/Flows/page?address=%2F001OBJECTID" rfl rfl,
   (c8_launcher connSample "MyFlow.flow-meta.xml" "win32").1 ResolverKind.flow
      "lightning/setup/Flows/page?address=%2F001OBJECTID" rfl rfl⟩
